import Mathlib

/-!
Verification of the type-resolution and literal-serialization engine of
naturebindgen (src/constants.cpp) against its natural-language specification.

The engine is embedded shallowly: clang's type system and expression trees
are modelled by plain inductive types carrying exactly the attributes the
engine consumes (canonical form, specific builtin kind, pointee, record
fields, USR string), and each function of constants.cpp is translated to a
Lean function of the same name and structure.
-/

namespace Constants

/-- Builtin type kinds, following clang's BuiltinType kinds.  Note clang's
distinction for character types: Char_U and Char_S are the kinds of the plain
type char (one per target, depending on whether char is unsigned or signed
there), while UChar and SChar are the kinds of the distinct explicitly
spelled types unsigned char and signed char. -/
inductive BuiltinKind where
  | bool
  | char_u
  | char_s
  | schar
  | uchar
  | short
  | ushort
  | int
  | uint
  | long
  | ulong
  | longlong
  | ulonglong
  | float
  | double
  | longdouble
deriving DecidableEq

/-- The raw spelling of a builtin type, as clang prints it. -/
def BuiltinKind.spellingOf : BuiltinKind → String
  | .bool => "_Bool"
  | .char_u => "char"
  | .char_s => "char"
  | .schar => "signed char"
  | .uchar => "unsigned char"
  | .short => "short"
  | .ushort => "unsigned short"
  | .int => "int"
  | .uint => "unsigned int"
  | .long => "long"
  | .ulong => "unsigned long"
  | .longlong => "long long"
  | .ulonglong => "unsigned long long"
  | .float => "float"
  | .double => "double"
  | .longdouble => "long double"

/-- clang's BuiltinType::isInteger: every kind from Bool up to the integer
kinds; the floating kinds are not integers. -/
def BuiltinKind.isIntegerKind : BuiltinKind → Bool
  | .float => false
  | .double => false
  | .longdouble => false
  | _ => true

/-- A record field as consumed by the engine: its declared name.  Fields are
kept in declared order in the owning RecordDecl. -/
structure FieldDecl where
  name : String
deriving DecidableEq

/-- A record declaration: name and declared, in-order fields. -/
structure RecordDecl where
  name : String
  fields : List FieldDecl
deriving DecidableEq

/-- A canonical (alias-stripped) C type, with the categories the engine
inspects: builtin, pointer (with canonical pointee), record, complete
unscoped enum, and anything else (arrays, function pointers, ...). -/
inductive CanonType where
  | builtin (k : BuiltinKind)
  | pointer (pointee : CanonType)
  | record (rd : RecordDecl)
  | enumTy (name : String)
  | otherTy (spelling : String)
deriving DecidableEq

/-- The raw spelling of a canonical type, as clang's getAsString would print
it. -/
def CanonType.spellingOf : CanonType → String
  | .builtin k => k.spellingOf
  | .pointer p => p.spellingOf ++ " *"
  | .record rd => "struct " ++ rd.name
  | .enumTy n => "enum " ++ n
  | .otherTy s => s

/-- clang Type::isIntegerType on the canonical type: builtin integer kinds
and complete unscoped enums (always the case for enums in C). -/
def CanonType.isIntegerType : CanonType → Bool
  | .builtin k => k.isIntegerKind
  | .enumTy _ => true
  | _ => false

/-- clang Type::isFloatingType on the canonical type. -/
def CanonType.isFloatingType : CanonType → Bool
  | .builtin .float => true
  | .builtin .double => true
  | .builtin .longdouble => true
  | _ => false

/-- clang Type::isPointerType on the canonical type. -/
def CanonType.isPointerType : CanonType → Bool
  | .pointer _ => true
  | _ => false

/-- clang Type::isSpecificBuiltinType: the canonical type is the builtin of
exactly this kind. -/
def CanonType.isSpecificBuiltinType (t : CanonType) (k : BuiltinKind) : Bool :=
  match t with
  | .builtin k2 => k2 == k
  | _ => false

/-- clang Type::getPointeeType, meaningful under isPointerType (the source
only reads it behind that guard; elsewhere the value is immaterial). -/
def CanonType.getPointeeType : CanonType → CanonType
  | .pointer p => p
  | t => t

/-- getCanonicalType on an already canonical type is the identity. -/
def CanonType.getCanonicalType (t : CanonType) : CanonType := t

/-- A QualType as the engine borrows it: its raw spelling as written (alias
names preserved), its canonical form, and the USR clang's index can derive
for it (none when USR generation fails). -/
structure CType where
  spelling : String
  canonical : CanonType
  usr : Option String
deriving DecidableEq

/-- QualType::getCanonicalType. -/
def CType.getCanonicalType (t : CType) : CanonType := t.canonical

/-- QualType::getAsString: the raw spelling of the type as given. -/
def CType.getAsString (t : CType) : String := t.spelling

/-- getAs of RecordType followed by getDecl: desugars to the canonical form
and yields the record declaration when that form is a record. -/
def CType.getAsRecordType (t : CType) : Option RecordDecl :=
  match t.canonical with
  | .record rd => some rd
  | _ => none

/-- src/constants.cpp getUSRForType (lines 29-39): on success the generated
USR string, on failure the empty string (the source returns the
default-constructed std::string). -/
def getUSRForType (t : CType) : String :=
  match t.usr with
  | some u => u
  | none => ""

/-- src/constants.cpp normalizeTypeName (lines 41-94): canonicalize, then map
specific builtin kinds to fixed semantic names, char-pointers to str, other
pointers to anyptr, and fall through to the raw spelling of the given (not
the canonical) type. -/
def normalizeTypeName (qt : CType) : String :=
  let canonical := qt.getCanonicalType
  if canonical.isIntegerType && canonical.isSpecificBuiltinType .int then "i32"
  else if canonical.isIntegerType && canonical.isSpecificBuiltinType .short then "i16"
  else if canonical.isIntegerType && canonical.isSpecificBuiltinType .longlong then "i64"
  else if canonical.isIntegerType &&
      (canonical.isSpecificBuiltinType .char_u || canonical.isSpecificBuiltinType .char_s) then "u8"
  else if canonical.isFloatingType && canonical.isSpecificBuiltinType .float then "f32"
  else if canonical.isFloatingType && canonical.isSpecificBuiltinType .double then "f64"
  else if canonical.isPointerType then
    let pointee := canonical.getPointeeType.getCanonicalType
    if pointee.isSpecificBuiltinType .char_s || pointee.isSpecificBuiltinType .char_u then "str"
    else "anyptr"
  else qt.getAsString

/-- The Override Registry: the process-wide customTypeNames map, modelled as
an association list in which the most recent insertion for a key stands
first and lookup takes the first hit (hash-map lookup semantics). -/
abbrev Registry := List (String × String)

/-- unordered_map::find on the registry. -/
def registryLookup (reg : Registry) (k : String) : Option String :=
  match reg.find? (fun p => p.1 == k) with
  | some p => some p.2
  | none => none

/-- src/constants.cpp set_custom_type_names (lines 201-209): clear the map,
then insert every (usrs[i], names[i]) pair in order; assignment through
operator[] lets the last entry for a duplicate key win.  The previous
registry contents are discarded entirely. -/
def set_custom_type_names (_old : Registry) (entries : List (String × String)) : Registry :=
  entries.foldl (fun m e => e :: m) []

/-- src/constants.cpp resolveTypeName (lines 96-107): look the type's USR up
in the registry; a hit wins outright, otherwise normalize. -/
def resolveTypeName (reg : Registry) (qt : CType) : String :=
  let usr := getUSRForType qt
  match registryLookup reg usr with
  | some n => n
  | none => normalizeTypeName qt

/-- A source span of an expression, as character offsets into the source
buffer: the characters from first (inclusive) to past (exclusive). -/
structure SrcSpan where
  first : Nat
  past : Nat
deriving DecidableEq

/-- Modelled from the spec: the boundary ability (spec, chapter 6, item c)
to recover the verbatim source substring for an expression span.  The
implementation delegates this to clang's Lexer::getSourceText, which is not
part of the repository. -/
def getSourceText (src : List Char) (sp : SrcSpan) : String :=
  String.mk ((src.drop sp.first).take (sp.past - sp.first))

/-- An expression node as the engine classifies it through dyn_cast:
IntegerLiteral (its sign-extended 64-bit value), FloatingLiteral (its
formatted value text), StringLiteral (its character content),
CompoundLiteralExpr (its type and its initializer expression), InitListExpr
(its ordered initializers), ImplicitCastExpr (its subexpression), and any
other kind.  Kinds with no structured handling carry the source span their
fallback re-extracts. -/
inductive Expr where
  | intLit (value : Int)
  | floatLit (text : String)
  | strLit (content : String)
  | compoundLit (ty : CType) (initializer : Expr)
  | initListE (sp : SrcSpan) (inits : List Expr)
  | implCast (sp : SrcSpan) (sub : Expr)
  | otherE (sp : SrcSpan)

/-- Expr::IgnoreImpCasts: strip any chain of implicit-cast wrappers. -/
def Expr.ignoreImpCasts : Expr → Expr
  | .implCast _ e => e.ignoreImpCasts
  | e => e

/-- Stripping implicit casts never grows an expression (the size invariant
the recursion below is measured with). -/
def Expr.sizeOf_ignoreImpCasts_le : ∀ (e : Expr), sizeOf e.ignoreImpCasts ≤ sizeOf e
  | .intLit _ => Nat.le_refl _
  | .floatLit _ => Nat.le_refl _
  | .strLit _ => Nat.le_refl _
  | .compoundLit _ _ => Nat.le_refl _
  | .initListE _ _ => Nat.le_refl _
  | .otherE _ => Nat.le_refl _
  | .implCast sp e => by
      have ih := Expr.sizeOf_ignoreImpCasts_le e
      simp [Expr.ignoreImpCasts]
      omega

mutual

/-- src/constants.cpp exprToString (lines 161-196): integer literals print
their sign-extended value, float literals their formatted value, string
literals are quoted and suffixed with .ref(), compound literals delegate to
compoundLiteralToNamedInit, and every other kind falls back to re-extracting
the verbatim source text of the expression's span.  A none result models the
undefined behavior of an out-of-bounds initializer access further down the
tree (see fieldInits); the source itself never returns a failure here. -/
def exprToString (reg : Registry) (src : List Char) (e : Expr) : Option String :=
  match e with
  | .intLit value => some (toString value)
  | .floatLit text => some text
  | .strLit content => some ("\"" ++ content ++ "\".ref()")
  | .compoundLit ty initializer => compoundLiteralToNamedInit reg src ty initializer
  | .initListE sp _ => some (getSourceText src sp)
  | .implCast sp _ => some (getSourceText src sp)
  | .otherE sp => some (getSourceText src sp)
termination_by (sizeOf e, 0)
decreasing_by
  apply Prod.Lex.left
  simp
  all_goals omega

/-- src/constants.cpp compoundLiteralToNamedInit (lines 110-159): a sentinel
marker when the literal's type is not a record or its initializer is not an
init list; otherwise the resolved type name around the brace-wrapped,
comma-joined field=value parts. -/
def compoundLiteralToNamedInit (reg : Registry) (src : List Char) (ty : CType)
    (initializer : Expr) : Option String :=
  match ty.getAsRecordType with
  | none => some "<not a record>"
  | some rd =>
    match initializer with
    | .initListE _ inits =>
      match fieldInits reg src inits rd.fields 0 with
      | none => none
      | some parts =>
        some (resolveTypeName reg ty ++ "\x7b" ++ String.intercalate ", " parts ++ "\x7d")
    | _ => some "<not an init list>"
termination_by (sizeOf initializer, 0)
decreasing_by
  apply Prod.Lex.left
  simp
  all_goals omega

/-- The loop of compoundLiteralToNamedInit (lines 138-154): for the i-th
declared field, take the i-th element of the init list unconditionally
(ile->getInit(i)); an access past the end of the list is undefined behavior
in the source and is modelled as none. -/
def fieldInits (reg : Registry) (src : List Char) (inits : List Expr)
    (fields : List FieldDecl) (i : Nat) : Option (List String) :=
  match fields with
  | [] => some []
  | f :: fs =>
    match h : inits[i]? with
    | none => none
    | some e =>
      match serializeFieldValue reg src e with
      | none => none
      | some v =>
        match fieldInits reg src inits fs (i + 1) with
        | none => none
        | some rest => some ((f.name ++ "=" ++ v) :: rest)
termination_by (sizeOf inits, fields.length + 2)
decreasing_by
  · apply Prod.Lex.left
    exact List.sizeOf_lt_of_mem (List.getElem?_mem h)
  · apply Prod.Lex.right
    simp

/-- The per-field dispatch of lines 145-152: strip implicit casts, recurse
directly for a nested compound literal, otherwise convert through
exprToString. -/
def serializeFieldValue (reg : Registry) (src : List Char) (e : Expr) : Option String :=
  match h : e.ignoreImpCasts with
  | .compoundLit ty2 init2 => compoundLiteralToNamedInit reg src ty2 init2
  | e2 => exprToString reg src e2
termination_by (sizeOf e, 1)
decreasing_by
  all_goals
    have h1 := Expr.sizeOf_ignoreImpCasts_le e
    rw [h] at h1
  · apply Prod.Lex.left
    simp at h1
    omega
  all_goals
    rcases Nat.lt_or_eq_of_le h1 with h2 | h2
    · exact Prod.Lex.left _ _ h2
    · rw [h2]
      exact Prod.Lex.right _ (by omega)

end

/-- Whether an expression is a brace-enclosed initializer list, i.e. whether
dyn_cast to InitListExpr succeeds on it. -/
def Expr.isInitListForm : Expr → Bool
  | .initListE _ _ => true
  | _ => false

/-- A top-level declaration of the synthetic translation unit, as the
declaration scan of the entry point classifies it: a variable declaration
with its name and initializer expression, or anything else. -/
inductive TopDecl where
  | varDecl (name : String) (init : Expr)
  | otherDecl

/-- The declaration-scan loop of macro_to_named_initializer (src/constants.cpp
lines 256-279): walk the top-level declarations; on a variable declaration
named __dummy_var whose initializer, implicit casts stripped, is a compound
literal, resolve the literal's type name, serialize the literal, and return
the assembled declaration string; otherwise keep scanning.  The end of the
list yields none (no suitable declaration).  An Except.error marks the
undefined behavior of the serializer on an out-of-bounds initializer access;
every regular outcome is Except.ok. -/
def findDummyVarAndConvert (reg : Registry) (src : List Char) (define_name : String) :
    List TopDecl → Except Unit (Option String)
  | [] => Except.ok none
  | .varDecl n init :: rest =>
    if n == "__dummy_var" then
      match init.ignoreImpCasts with
      | .compoundLit ty initz =>
        match compoundLiteralToNamedInit reg src ty initz with
        | none => Except.error ()
        | some init_str =>
          Except.ok (some (resolveTypeName reg ty ++ " " ++ define_name ++ " = " ++ init_str ++ ";"))
      | _ => findDummyVarAndConvert reg src define_name rest
    else findDummyVarAndConvert reg src define_name rest
  | .otherDecl :: rest => findDummyVarAndConvert reg src define_name rest

/-- src/constants.cpp macro_to_named_initializer (lines 211-283).  The
angle-bracket check on the header path is the source's
header_path[0] == '<' && header_path[len-1] == '>' (for the empty string the
&& short-circuits on the first test).  Building the synthetic translation
unit is delegated to the external compilation driver
(buildASTFromCodeWithArgs); its outcome enters here as parsed, none meaning
the driver produced no analyzable unit, per the boundary contract of the
spec (chapter 6).  src is the source buffer used for span re-extraction. -/
def macro_to_named_initializer (reg : Registry) (header_path : String)
    (define_name : String) (parsed : Option (List TopDecl)) (src : List Char) :
    Except Unit (Option String) :=
  if header_path.toList.head? == some '<' && header_path.toList.getLast? == some '>' then
    Except.ok none
  else
    match parsed with
    | none => Except.ok none
    | some decls => findDummyVarAndConvert reg src define_name decls

/-- Whether a declaration is the sentinel: a variable declaration named
__dummy_var. -/
def TopDecl.isSentinel : TopDecl → Bool
  | .varDecl n _ => n == "__dummy_var"
  | .otherDecl => false

/-- Whether a declaration is a sentinel whose initializer, implicit casts
stripped, is a compound literal — the only shape the scan converts. -/
def TopDecl.isCompoundSentinel : TopDecl → Bool
  | .varDecl n init =>
    n == "__dummy_var" &&
      (match init.ignoreImpCasts with
       | .compoundLit _ _ => true
       | _ => false)
  | .otherDecl => false

/-- The single-field record type of one level of a nested chain literal:
a record named recName with the one field fieldName, the type spelled
recName (a typedef name, as in the repository's test headers). -/
def chainRecType (recName fieldName : String) : CType :=
  CType.mk recName (CanonType.record (RecordDecl.mk recName [FieldDecl.mk fieldName])) none

/-- A compound literal of nesting depth levels.length: each (recName,
fieldName) level wraps the next in a single-field record compound literal,
bottoming out in an integer literal. -/
def chainExpr : List (String × String) → Int → Expr
  | [], v => Expr.intLit v
  | (rn, fn) :: rest, v =>
    Expr.compoundLit (chainRecType rn fn) (Expr.initListE (SrcSpan.mk 0 0) [chainExpr rest v])

/-- The expected rendering of a chain literal: each level contributes one
recName-prefixed brace group holding fieldName=value. -/
def renderChain : List (String × String) → Int → String
  | [], v => toString v
  | (rn, fn) :: rest, v => rn ++ "\x7b" ++ fn ++ "=" ++ renderChain rest v ++ "\x7d"

/-- The brace characters of a string, in order. -/
def braceChars (s : String) : List Char :=
  s.toList.filter (fun c => c == '\x7b' || c == '\x7d')

/-- The well-formedness of an expression tree under which serialization is
total: at every compound literal with a record type and an init-list
initializer, the initializer list is at least as long as the record's
declared field list (with the subtrees well-formed too); compound literals
of the two sentinel-marker shapes are total regardless of their subtrees
because serialization stops at the marker. -/
inductive EnoughInits : Expr → Prop where
  | intLit (v : Int) : EnoughInits (.intLit v)
  | floatLit (s : String) : EnoughInits (.floatLit s)
  | strLit (s : String) : EnoughInits (.strLit s)
  | otherE (sp : SrcSpan) : EnoughInits (.otherE sp)
  | initListE (sp : SrcSpan) (inits : List Expr) :
      (∀ e ∈ inits, EnoughInits e) → EnoughInits (.initListE sp inits)
  | implCast (sp : SrcSpan) (e : Expr) : EnoughInits e → EnoughInits (.implCast sp e)
  | compound (ty : CType) (rd : RecordDecl) (sp : SrcSpan) (inits : List Expr) :
      ty.getAsRecordType = some rd → rd.fields.length ≤ inits.length →
      (∀ e ∈ inits, EnoughInits e) → EnoughInits (.compoundLit ty (.initListE sp inits))
  | compoundNotRecord (ty : CType) (init : Expr) :
      ty.getAsRecordType = none → EnoughInits (.compoundLit ty init)
  | compoundNotList (ty : CType) (init : Expr) :
      init.isInitListForm = false → EnoughInits (.compoundLit ty init)

/-- Whether a canonical type reaches normalizeTypeName's final return (line
92 of src/constants.cpp): none of the specific builtin kinds of the mapping
table, and not a pointer.  The isIntegerType/isFloatingType guards of the
source add nothing here, since a type of a specific integer kind is an
integer type and likewise for floating kinds. -/
def CanonType.hitsDefaultCase (c : CanonType) : Bool :=
  !(c.isSpecificBuiltinType .int || c.isSpecificBuiltinType .short ||
    c.isSpecificBuiltinType .longlong || c.isSpecificBuiltinType .char_u ||
    c.isSpecificBuiltinType .char_s || c.isSpecificBuiltinType .float ||
    c.isSpecificBuiltinType .double || c.isPointerType)

/-- An empty registry never produces a lookup hit, so resolution is
normalization. -/
theorem resolveTypeName_nil (qt : CType) : resolveTypeName [] qt = normalizeTypeName qt := rfl

/-- On a type whose canonical form matches no mapping-table case,
normalizeTypeName returns the raw spelling of the given type. -/
theorem normalizeTypeName_default (qt : CType) (h : qt.canonical.hitsDefaultCase = true) :
    normalizeTypeName qt = qt.spelling := by
  simp only [CanonType.hitsDefaultCase, Bool.not_eq_true', Bool.or_eq_false_iff] at h
  obtain ⟨⟨⟨⟨⟨⟨⟨h1, h2⟩, h3⟩, h4⟩, h5⟩, h6⟩, h7⟩, h8⟩ := h
  unfold normalizeTypeName
  simp [CType.getCanonicalType, CType.getAsString, h1, h2, h3, h4, h5, h6, h7, h8]

/-- C1 (amended): with an empty Override Registry, resolution maps int to
i32, short to i16, long long to i64, plain char (clang kinds Char_U and
Char_S, the two target flavors of the type char) to u8, float to f32,
double to f64, pointers whose canonicalized pointee is plain char (either
flavor) to str, and every other pointer to anyptr. -/
theorem resolve_primitive_table_amended (sp : String) (u : Option String) (pt : CanonType) :
    resolveTypeName [] (CType.mk sp (.builtin .int) u) = "i32"
  ∧ resolveTypeName [] (CType.mk sp (.builtin .short) u) = "i16"
  ∧ resolveTypeName [] (CType.mk sp (.builtin .longlong) u) = "i64"
  ∧ resolveTypeName [] (CType.mk sp (.builtin .char_u) u) = "u8"
  ∧ resolveTypeName [] (CType.mk sp (.builtin .char_s) u) = "u8"
  ∧ resolveTypeName [] (CType.mk sp (.builtin .float) u) = "f32"
  ∧ resolveTypeName [] (CType.mk sp (.builtin .double) u) = "f64"
  ∧ resolveTypeName [] (CType.mk sp (.pointer (.builtin .char_s)) u) = "str"
  ∧ resolveTypeName [] (CType.mk sp (.pointer (.builtin .char_u)) u) = "str"
  ∧ (pt.isSpecificBuiltinType .char_s = false → pt.isSpecificBuiltinType .char_u = false →
      resolveTypeName [] (CType.mk sp (.pointer pt) u) = "anyptr") := by
  refine ⟨rfl, rfl, rfl, rfl, rfl, rfl, rfl, rfl, rfl, ?_⟩
  intro h1 h2
  rw [resolveTypeName_nil]
  unfold normalizeTypeName
  simp [CType.getCanonicalType, CanonType.isIntegerType, CanonType.isFloatingType,
    CanonType.isPointerType, CanonType.getPointeeType,
    CanonType.getCanonicalType, h1, h2]

/-- C1 (counterexample): the explicitly spelled type unsigned char (clang
kind UChar) is not Char_U or Char_S, so with an empty registry it resolves
to its raw spelling, not to u8; likewise a pointer to unsigned char
resolves to anyptr, not to str. -/
theorem resolve_unsigned_char_not_u8 :
    resolveTypeName [] (CType.mk "unsigned char" (.builtin .uchar) none) = "unsigned char"
  ∧ resolveTypeName [] (CType.mk "unsigned char" (.builtin .uchar) none) ≠ "u8"
  ∧ resolveTypeName [] (CType.mk "unsigned char *" (.pointer (.builtin .uchar)) none) = "anyptr"
  ∧ resolveTypeName [] (CType.mk "unsigned char *" (.pointer (.builtin .uchar)) none) ≠ "str" := by
  decide

/-- C1 (witness): the amended table applied at concrete types. -/
theorem resolve_primitive_table_witness :
    resolveTypeName [] (CType.mk "int" (.builtin .int) (some "c:int")) = "i32"
  ∧ resolveTypeName [] (CType.mk "void *" (.pointer (.otherTy "void")) (some "c:ptr")) = "anyptr" := by
  constructor
  · exact (resolve_primitive_table_amended "int" (some "c:int") (.otherTy "void")).1
  · exact (resolve_primitive_table_amended "void *" (some "c:ptr")
      (.otherTy "void")).2.2.2.2.2.2.2.2.2 (by decide) (by decide)

/-- C3 (amended): a type outside the mapping table with no registry hit
resolves to the raw spelling of the type as given (alias names preserved),
never an error. -/
theorem resolve_fallthrough_spelling (reg : Registry) (qt : CType)
    (h1 : registryLookup reg (getUSRForType qt) = none)
    (h2 : qt.canonical.hitsDefaultCase = true) :
    resolveTypeName reg qt = qt.spelling := by
  have h3 := normalizeTypeName_default qt h2
  unfold resolveTypeName
  simp [h1, h3]

/-- C3 (counterexample): for a typedef name Bar whose canonical type is
struct Foo, resolution with an empty registry returns the alias spelling
Bar, not the canonical alias-stripped spelling struct Foo. -/
theorem resolve_alias_spelling_counterexample :
    resolveTypeName [] (CType.mk "Bar" (.record (RecordDecl.mk "Foo" [])) none) = "Bar"
  ∧ CanonType.spellingOf (CType.mk "Bar" (.record (RecordDecl.mk "Foo" [])) none).canonical
      = "struct Foo"
  ∧ ("Bar" : String) ≠ "struct Foo" := by
  decide

/-- C3 (witness): an enum with no override resolves to its given raw
spelling. -/
theorem resolve_fallthrough_witness :
    resolveTypeName [("c:@S@Point", "Vec2")]
      (CType.mk "enum Color" (.enumTy "Color") (some "c:@E@Color")) = "enum Color" := by
  exact resolve_fallthrough_spelling [("c:@S@Point", "Vec2")]
    (CType.mk "enum Color" (.enumTy "Color") (some "c:@E@Color")) (by decide) (by decide)

/-- C4: a registry entry keyed by the type's STI always wins: resolve
returns the registered name regardless of the type's built-in category. -/
theorem resolve_override_precedence (reg : Registry) (qt : CType) (u name : String)
    (h1 : qt.usr = some u) (h2 : registryLookup reg u = some name) :
    resolveTypeName reg qt = name := by
  unfold resolveTypeName
  simp [getUSRForType, h1, h2]

/-- C4 (witness): an override on the primitive-looking type int wins over
the built-in mapping. -/
theorem resolve_override_precedence_witness :
    resolveTypeName [("c:int", "MyInt")] (CType.mk "int" (.builtin .int) (some "c:int"))
      = "MyInt" := by
  exact resolve_override_precedence [("c:int", "MyInt")]
    (CType.mk "int" (.builtin .int) (some "c:int")) "c:int" "MyInt" rfl rfl

/-- C5: a bulk set replaces the registry wholesale — after two setAll
calls, a key present only in the first list is absent — and within one
setAll list the last entry for a duplicate key wins. -/
theorem set_custom_type_names_replaces :
    (∀ (old : Registry) (k1 n1 k2 n2 : String), k1 ≠ k2 →
      registryLookup (set_custom_type_names (set_custom_type_names old [(k1, n1)])
        [(k2, n2)]) k1 = none)
  ∧ (∀ (old : Registry) (es : List (String × String)) (k v : String),
      registryLookup (set_custom_type_names old (es ++ [(k, v)])) k = some v) := by
  constructor
  · intro old k1 n1 k2 n2 hne
    have hb : (k2 == k1) = false := by
      simp only [beq_eq_false_iff_ne, ne_eq]
      exact fun hh => hne hh.symm
    simp [set_custom_type_names, registryLookup, List.find?, hb]
  · intro old es k v
    simp [set_custom_type_names, registryLookup, List.foldl_append, List.find?]

/-- C5 (witness): the replacement and last-wins behavior at concrete
entries. -/
theorem set_custom_type_names_replaces_witness :
    registryLookup (set_custom_type_names (set_custom_type_names [] [("k1", "A")])
      [("k2", "B")]) "k1" = none
  ∧ registryLookup (set_custom_type_names [] [("k", "first"), ("k", "last")]) "k"
      = some "last" := by
  constructor
  · exact set_custom_type_names_replaces.1 [] "k1" "A" "k2" "B" (by decide)
  · exact set_custom_type_names_replaces.2 [] [("k", "first")] "k" "last"

/-- C6 (amended): a type whose STI generation fails is looked up under the
empty-string key, so as long as that key has no registry entry, resolution
degrades to normalization and no override applies. -/
theorem resolve_failed_usr_no_override (reg : Registry) (qt : CType)
    (h1 : qt.usr = none) (h2 : registryLookup reg "" = none) :
    resolveTypeName reg qt = normalizeTypeName qt := by
  unfold resolveTypeName
  simp [getUSRForType, h1, h2]

/-- C6 (counterexample): an explicit registry entry with the empty-string
key applies to every type whose STI generation fails, so such a type can
receive a registered override name. -/
theorem resolve_empty_usr_override_hit :
    registryLookup (set_custom_type_names [] [("", "Hacked")]) "" = some "Hacked"
  ∧ resolveTypeName (set_custom_type_names [] [("", "Hacked")])
      (CType.mk "struct S" (.record (RecordDecl.mk "S" [])) none) = "Hacked" := by
  decide

/-- C6 (witness): with a nonempty registry that has no empty-string key, a
type without an STI resolves by normalization. -/
theorem resolve_failed_usr_witness :
    resolveTypeName [("c:@S@Point", "Vec2")]
      (CType.mk "struct S" (.record (RecordDecl.mk "S" [])) none)
      = normalizeTypeName (CType.mk "struct S" (.record (RecordDecl.mk "S" [])) none) := by
  exact resolve_failed_usr_no_override [("c:@S@Point", "Vec2")]
    (CType.mk "struct S" (.record (RecordDecl.mk "S" [])) none) rfl (by decide)

/-- The field-level dispatch agrees with exprToString applied to the
cast-stripped value, since exprToString routes compound literals to
compoundLiteralToNamedInit itself. -/
theorem serializeFieldValue_eq (reg : Registry) (src : List Char) (e : Expr) :
    serializeFieldValue reg src e = exprToString reg src e.ignoreImpCasts := by
  unfold serializeFieldValue
  split
  · rename_i h
    rw [h]
    simp [exprToString]
  · rfl

/-- An empty field list serializes to no parts. -/
theorem fieldInits_nil (reg : Registry) (src : List Char) (inits : List Expr) (i : Nat) :
    fieldInits reg src inits [] i = some [] := by
  simp [fieldInits]

/-- Unfolding of the field loop for one declared field, in bind form. -/
theorem fieldInits_cons (reg : Registry) (src : List Char) (inits : List Expr)
    (f : FieldDecl) (fs : List FieldDecl) (i : Nat) :
    fieldInits reg src inits (f :: fs) i =
      inits[i]?.bind (fun e => (serializeFieldValue reg src e).bind (fun v =>
        (fieldInits reg src inits fs (i + 1)).map (fun rest => (f.name ++ "=" ++ v) :: rest))) := by
  conv_lhs => unfold fieldInits
  split
  · rename_i h
    rw [h]
    rfl
  · rename_i e h
    rw [h]
    cases hs : serializeFieldValue reg src e with
    | none => simp [hs]
    | some v =>
      cases hrest : fieldInits reg src inits fs (i + 1) with
      | none => simp [hs, hrest]
      | some rest => simp [hs, hrest]

/-- Unfolding of compoundLiteralToNamedInit on a record type with an init
list, in map form. -/
theorem compoundLiteralToNamedInit_record (reg : Registry) (src : List Char) (ty : CType)
    (rd : RecordDecl) (sp : SrcSpan) (inits : List Expr) (h : ty.getAsRecordType = some rd) :
    compoundLiteralToNamedInit reg src ty (.initListE sp inits) =
      (fieldInits reg src inits rd.fields 0).map (fun parts =>
        resolveTypeName reg ty ++ "\x7b" ++ String.intercalate ", " parts ++ "\x7d") := by
  cases hf : fieldInits reg src inits rd.fields 0 with
  | none => simp [compoundLiteralToNamedInit, h, hf]
  | some parts => simp [compoundLiteralToNamedInit, h, hf]

/-- A non-record compound literal yields the first sentinel marker. -/
theorem compoundLiteralToNamedInit_notRecord (reg : Registry) (src : List Char) (ty : CType)
    (init : Expr) (h : ty.getAsRecordType = none) :
    compoundLiteralToNamedInit reg src ty init = some "<not a record>" := by
  simp [compoundLiteralToNamedInit, h]

/-- A record compound literal whose initializer is not an init list yields
the second sentinel marker. -/
theorem compoundLiteralToNamedInit_notList (reg : Registry) (src : List Char) (ty : CType)
    (rd : RecordDecl) (init : Expr) (h1 : ty.getAsRecordType = some rd)
    (h2 : init.isInitListForm = false) :
    compoundLiteralToNamedInit reg src ty init = some "<not an init list>" := by
  cases init <;> simp_all [compoundLiteralToNamedInit, Expr.isInitListForm]

/-- If the init list is too short for the declared fields (starting at
field index i), the loop reaches an access past the end and fails. -/
theorem fieldInits_oob (reg : Registry) (src : List Char) (inits : List Expr) :
    ∀ (fields : List FieldDecl) (i : Nat), i ≤ inits.length →
      inits.length < i + fields.length →
      fieldInits reg src inits fields i = none := by
  intro fields
  induction fields with
  | nil => intro i h1 h2; simp at h2; omega
  | cons f fs ih =>
    intro i h1 h2
    rcases Nat.lt_or_eq_of_le h1 with hlt | heq
    · have hsome : inits[i]? = some inits[i] := by
        simp [List.getElem?_eq_getElem hlt]
      have hih := ih (i + 1) (by omega) (by simp at h2 ⊢; omega)
      rw [fieldInits_cons, hsome]
      cases hs : serializeFieldValue reg src inits[i] <;> simp [hs, hih]
    · have hnone : inits[i]? = none := by
        rw [List.getElem?_eq_none_iff]
        omega
      rw [fieldInits_cons, hnone]
      rfl

/-- If every element of the init list serializes and the list is long
enough for the remaining fields, the loop succeeds. -/
theorem fieldInits_total (reg : Registry) (src : List Char) (inits : List Expr)
    (hall : ∀ e ∈ inits, (serializeFieldValue reg src e).isSome) :
    ∀ (fields : List FieldDecl) (i : Nat), i + fields.length ≤ inits.length →
      (fieldInits reg src inits fields i).isSome := by
  intro fields
  induction fields with
  | nil => intro i h; rw [fieldInits_nil]; rfl

  | cons f fs ih =>
    intro i h
    have hlt : i < inits.length := by simp at h; omega
    have hsome : inits[i]? = some inits[i] := by
      simp [List.getElem?_eq_getElem hlt]
    obtain ⟨v, hv⟩ := Option.isSome_iff_exists.mp
      (hall inits[i] (List.getElem_mem hlt))
    obtain ⟨rest, hrest⟩ := Option.isSome_iff_exists.mp (ih (i + 1) (by simp at h ⊢; omega))
    rw [fieldInits_cons, hsome]
    simp [hv, hrest]

/-- Serialization is total on every expression tree with enough
initializers at each compound node. -/
theorem exprToString_isSome_of_enough (reg : Registry) (src : List Char) (e : Expr)
    (he : EnoughInits e) :
    (serializeFieldValue reg src e).isSome ∧ (exprToString reg src e).isSome := by
  induction he with
  | intLit v =>
    exact ⟨by rw [serializeFieldValue_eq]; simp [Expr.ignoreImpCasts, exprToString],
      by simp [exprToString]⟩
  | floatLit s =>
    exact ⟨by rw [serializeFieldValue_eq]; simp [Expr.ignoreImpCasts, exprToString],
      by simp [exprToString]⟩
  | strLit s =>
    exact ⟨by rw [serializeFieldValue_eq]; simp [Expr.ignoreImpCasts, exprToString],
      by simp [exprToString]⟩
  | otherE sp =>
    exact ⟨by rw [serializeFieldValue_eq]; simp [Expr.ignoreImpCasts, exprToString],
      by simp [exprToString]⟩
  | initListE sp inits hmem ih =>
    constructor
    · rw [serializeFieldValue_eq]
      simp [Expr.ignoreImpCasts, exprToString]
    · simp [exprToString]
  | implCast sp e2 hsub ih =>
    constructor
    · rw [serializeFieldValue_eq]
      simp only [Expr.ignoreImpCasts]
      rw [← serializeFieldValue_eq]
      exact ih.1
    · simp [exprToString]
  | compound ty rd sp inits hrec hlen hmem ih =>
    have hcl : (compoundLiteralToNamedInit reg src ty (.initListE sp inits)).isSome := by
      rw [compoundLiteralToNamedInit_record reg src ty rd sp inits hrec]
      simpa using fieldInits_total reg src inits (fun e2 he2 => (ih e2 he2).1) rd.fields 0
        (by omega)
    constructor
    · rw [serializeFieldValue_eq]
      simp only [Expr.ignoreImpCasts]
      simpa [exprToString] using hcl
    · simpa [exprToString] using hcl
  | compoundNotRecord ty init hrec =>
    have hcl : (compoundLiteralToNamedInit reg src ty init).isSome := by
      rw [compoundLiteralToNamedInit_notRecord reg src ty init hrec]
      rfl
    constructor
    · rw [serializeFieldValue_eq]
      simp only [Expr.ignoreImpCasts]
      simpa [exprToString] using hcl
    · simpa [exprToString] using hcl
  | compoundNotList ty init hform =>
    cases hrd : ty.getAsRecordType with
    | none =>
      have hcl : (compoundLiteralToNamedInit reg src ty init).isSome := by
        rw [compoundLiteralToNamedInit_notRecord reg src ty init hrd]
        rfl
      constructor
      · rw [serializeFieldValue_eq]
        simp only [Expr.ignoreImpCasts]
        simpa [exprToString] using hcl
      · simpa [exprToString] using hcl
    | some rd =>
      have hcl : (compoundLiteralToNamedInit reg src ty init).isSome := by
        rw [compoundLiteralToNamedInit_notList reg src ty rd init hrd hform]
        rfl
      constructor
      · rw [serializeFieldValue_eq]
        simp only [Expr.ignoreImpCasts]
        simpa [exprToString] using hcl
      · simpa [exprToString] using hcl

/-- braceChars distributes over string append. -/
theorem braceChars_append (s t : String) : braceChars (s ++ t) = braceChars s ++ braceChars t := by
  simp only [braceChars]
  rw [show (s ++ t).toList = s.toList ++ t.toList from rfl, List.filter_append]

/-- A chain literal never starts with an implicit cast. -/
theorem chainExpr_ignoreImpCasts (levels : List (String × String)) (v : Int) :
    (chainExpr levels v).ignoreImpCasts = chainExpr levels v := by
  cases levels <;> rfl

/-- The single-field record type of a chain level resolves to its own name
under an empty registry. -/
theorem resolve_chainRecType (rn fn : String) :
    resolveTypeName [] (chainRecType rn fn) = rn := rfl

/-- Serializing a chain literal of any depth yields exactly the expected
nested rendering. -/
theorem exprToString_chain (src : List Char) :
    ∀ (levels : List (String × String)) (v : Int),
      exprToString [] src (chainExpr levels v) = some (renderChain levels v) := by
  intro levels
  induction levels with
  | nil =>
    intro v
    simp [chainExpr, renderChain, exprToString]
  | cons p rest ih =>
    intro v
    obtain ⟨rn, fn⟩ := p
    have hstep : exprToString [] src (chainExpr ((rn, fn) :: rest) v)
        = compoundLiteralToNamedInit [] src (chainRecType rn fn)
            (.initListE (SrcSpan.mk 0 0) [chainExpr rest v]) := by
      simp [chainExpr, exprToString]
    rw [hstep,
      compoundLiteralToNamedInit_record [] src (chainRecType rn fn)
        (RecordDecl.mk rn [FieldDecl.mk fn]) (SrcSpan.mk 0 0) [chainExpr rest v] rfl,
      fieldInits_cons]
    have hser : serializeFieldValue [] src (chainExpr rest v) = some (renderChain rest v) := by
      rw [serializeFieldValue_eq, chainExpr_ignoreImpCasts, ih v]
    simp [hser, fieldInits_nil, renderChain, resolve_chainRecType,
      String.intercalate, String.intercalate.go, String.append_assoc]

/-- The brace characters of a depth-n chain rendering are exactly n opening
braces followed by n closing braces, when the names and the leaf text are
brace-free. -/
theorem braceChars_renderChain :
    ∀ (levels : List (String × String)) (v : Int),
      (∀ p ∈ levels, braceChars p.1 = [] ∧ braceChars p.2 = []) →
      braceChars (toString v) = [] →
      braceChars (renderChain levels v)
        = List.replicate levels.length '\x7b' ++ List.replicate levels.length '\x7d' := by
  intro levels
  induction levels with
  | nil =>
    intro v _ h2
    simpa [renderChain] using h2
  | cons p rest ih =>
    intro v h1 h2
    obtain ⟨rn, fn⟩ := p
    have hrn : braceChars rn = [] := (h1 (rn, fn) (by simp)).1
    have hfn : braceChars fn = [] := (h1 (rn, fn) (by simp)).2
    have hrest := ih v (fun q hq => h1 q (by simp [hq])) h2
    have hob : braceChars "\x7b" = ['\x7b'] := by decide
    have hcb : braceChars "\x7d" = ['\x7d'] := by decide
    have heq2 : braceChars "=" = [] := by decide
    simp only [renderChain, braceChars_append, hrn, hfn, hrest, hob, hcb, heq2,
      List.length_cons, List.replicate_succ, List.replicate_succ']
    simp
    rw [← List.replicate_succ', ← List.replicate_succ]

/-- Serializing a record whose initializers are integer literals pairs the
i-th declared field with the i-th value, in declared order. -/
theorem fieldInits_intLits (reg : Registry) (src : List Char) (vals : List Int) :
    ∀ (fields : List FieldDecl) (i : Nat), i + fields.length ≤ vals.length →
      fieldInits reg src (vals.map Expr.intLit) fields i
        = some (List.zipWith (fun f v2 => f.name ++ "=" ++ toString v2) fields (vals.drop i)) := by
  intro fields
  induction fields with
  | nil =>
    intro i h
    simp [fieldInits_nil]
  | cons f fs ih =>
    intro i h
    have hlt : i < vals.length := by simp at h; omega
    have hsome : (vals.map Expr.intLit)[i]? = some (Expr.intLit vals[i]) := by
      simp [List.getElem?_eq_getElem hlt]
    have hser : serializeFieldValue reg src (Expr.intLit vals[i]) = some (toString vals[i]) := by
      rw [serializeFieldValue_eq]
      simp [Expr.ignoreImpCasts, exprToString]
    rw [fieldInits_cons, hsome]
    simp [hser, ih (i + 1) (by simp at h ⊢; omega)]
    rw [List.drop_eq_getElem_cons hlt, List.zipWith_cons_cons]

/-- C2: for a compound literal of nesting depth N, serialization produces
text with exactly N matching nested Name-brace groups (the brace characters
are N opens then N closes), and at each record the i-th declared field is
rendered as fieldName=value from the i-th initializer-list element, in
declared order. -/
theorem compound_nested_rendering :
    (∀ (src : List Char) (levels : List (String × String)) (v : Int),
        exprToString [] src (chainExpr levels v) = some (renderChain levels v))
  ∧ (∀ (levels : List (String × String)) (v : Int),
        (∀ p ∈ levels, braceChars p.1 = [] ∧ braceChars p.2 = []) →
        braceChars (toString v) = [] →
        braceChars (renderChain levels v)
          = List.replicate levels.length '\x7b' ++ List.replicate levels.length '\x7d')
  ∧ (∀ (src : List Char) (rn : String) (u : Option String) (fields : List FieldDecl)
        (vals : List Int) (sp : SrcSpan),
        fields.length ≤ vals.length →
        compoundLiteralToNamedInit [] src
          (CType.mk rn (.record (RecordDecl.mk rn fields)) u)
          (.initListE sp (vals.map Expr.intLit))
          = some (rn ++ "\x7b" ++ String.intercalate ", "
              (List.zipWith (fun f v2 => f.name ++ "=" ++ toString v2) fields vals) ++ "\x7d")) := by
  refine ⟨exprToString_chain, braceChars_renderChain, ?_⟩
  intro src rn u fields vals sp h
  have hres : resolveTypeName [] (CType.mk rn (.record (RecordDecl.mk rn fields)) u) = rn := by
    rw [resolveTypeName_nil]
    exact normalizeTypeName_default _ rfl
  rw [compoundLiteralToNamedInit_record [] src
      (CType.mk rn (.record (RecordDecl.mk rn fields)) u) (RecordDecl.mk rn fields) sp
      (vals.map Expr.intLit) rfl,
    fieldInits_intLits [] src vals fields 0 (by simpa using h)]
  simp [hres]

/-- C2 (witness): a depth-2 chain and a two-field record at concrete
values. -/
theorem compound_nested_rendering_witness :
    exprToString [] [] (chainExpr [("Outer", "inner"), ("Inner", "x")] 7)
      = some (renderChain [("Outer", "inner"), ("Inner", "x")] 7)
  ∧ braceChars (renderChain [("Outer", "inner"), ("Inner", "x")] 7)
      = List.replicate 2 '\x7b' ++ List.replicate 2 '\x7d'
  ∧ compoundLiteralToNamedInit [] []
      (CType.mk "Point" (.record (RecordDecl.mk "Point" [FieldDecl.mk "x", FieldDecl.mk "y"])) none)
      (.initListE (SrcSpan.mk 0 0) ([1, 2].map Expr.intLit))
      = some ("Point" ++ "\x7b" ++ String.intercalate ", "
          (List.zipWith (fun f v2 => f.name ++ "=" ++ toString v2)
            [FieldDecl.mk "x", FieldDecl.mk "y"] [1, 2]) ++ "\x7d") := by
  refine ⟨compound_nested_rendering.1 [] [("Outer", "inner"), ("Inner", "x")] 7, ?_, ?_⟩
  · exact compound_nested_rendering.2.1 [("Outer", "inner"), ("Inner", "x")] 7
      (by decide) (by decide)
  · exact compound_nested_rendering.2.2 [] "Point" none [FieldDecl.mk "x", FieldDecl.mk "y"]
      [1, 2] (SrcSpan.mk 0 0) (by decide)

/-- C7: compoundToInit never aborts on malformed input: a non-record type
yields one sentinel marker, a non-init-list initializer yields a different
one. -/
theorem compound_sentinel_markers (reg : Registry) (src : List Char) (ty : CType) (init : Expr) :
    (ty.getAsRecordType = none →
      compoundLiteralToNamedInit reg src ty init = some "<not a record>")
  ∧ (∀ rd, ty.getAsRecordType = some rd → init.isInitListForm = false →
      compoundLiteralToNamedInit reg src ty init = some "<not an init list>")
  ∧ ("<not a record>" : String) ≠ "<not an init list>" := by
  refine ⟨fun h => compoundLiteralToNamedInit_notRecord reg src ty init h,
    fun rd h1 h2 => compoundLiteralToNamedInit_notList reg src ty rd init h1 h2, by decide⟩

/-- C7 (witness): the two markers at concrete malformed literals. -/
theorem compound_sentinel_markers_witness :
    compoundLiteralToNamedInit [] [] (CType.mk "int" (.builtin .int) none) (Expr.intLit 1)
      = some "<not a record>"
  ∧ compoundLiteralToNamedInit [] []
      (CType.mk "Point" (.record (RecordDecl.mk "Point" [FieldDecl.mk "x"])) none)
      (Expr.intLit 1) = some "<not an init list>" := by
  constructor
  · exact (compound_sentinel_markers [] [] (CType.mk "int" (.builtin .int) none)
      (Expr.intLit 1)).1 rfl
  · exact (compound_sentinel_markers [] []
      (CType.mk "Point" (.record (RecordDecl.mk "Point" [FieldDecl.mk "x"])) none)
      (Expr.intLit 1)).2.1 (RecordDecl.mk "Point" [FieldDecl.mk "x"]) rfl rfl

/-- C9: an Other-kind expression serializes to exactly the source substring
of its span, never a failure, and the text is non-empty for a well-formed
(non-degenerate, in-range) span. -/
theorem exprToString_other_fallback (reg : Registry) (src : List Char) (sp : SrcSpan) :
    exprToString reg src (.otherE sp) = some (getSourceText src sp)
  ∧ (sp.first < sp.past → sp.past ≤ src.length → getSourceText src sp ≠ "") := by
  constructor
  · simp [exprToString]
  · intro h1 h2 hcon
    have hdata : (src.drop sp.first).take (sp.past - sp.first) = [] :=
      congrArg String.data hcon
    have hlen := congrArg List.length hdata
    simp [List.length_take, List.length_drop] at hlen
    omega

/-- C9 (witness): the fallback at a concrete span over a concrete buffer. -/
theorem exprToString_other_fallback_witness :
    exprToString [] "abc".toList (.otherE (SrcSpan.mk 0 2))
      = some (getSourceText "abc".toList (SrcSpan.mk 0 2))
  ∧ getSourceText "abc".toList (SrcSpan.mk 0 2) ≠ "" := by
  constructor
  · exact (exprToString_other_fallback [] "abc".toList (SrcSpan.mk 0 2)).1
  · exact (exprToString_other_fallback [] "abc".toList (SrcSpan.mk 0 2)).2
      (by decide) (by decide)

/-- C10: the field loop indexes the initializer list unconditionally for
every declared field, so a record with more fields than initializer
elements drives the access past the end of the list (modelled as none),
and serialization is total once every compound node has at least as many
initializer elements as declared fields. -/
theorem compound_init_indexing_totality :
    (∀ (reg : Registry) (src : List Char) (sp2 : String) (rd : RecordDecl)
        (u : Option String) (sp : SrcSpan) (inits : List Expr),
        inits.length < rd.fields.length →
        compoundLiteralToNamedInit reg src (CType.mk sp2 (.record rd) u)
          (.initListE sp inits) = none)
  ∧ (∀ (reg : Registry) (src : List Char) (e : Expr), EnoughInits e →
        (exprToString reg src e).isSome) := by
  constructor
  · intro reg src sp2 rd u sp inits h
    rw [compoundLiteralToNamedInit_record reg src (CType.mk sp2 (.record rd) u) rd sp inits
      rfl, fieldInits_oob reg src inits rd.fields 0 (by omega) (by omega)]
    rfl
  · intro reg src e he
    exact (exprToString_isSome_of_enough reg src e he).2

/-- C10 (witness): two declared fields with one initializer fail; a
well-formed leaf succeeds. -/
theorem compound_init_indexing_witness :
    compoundLiteralToNamedInit [] []
      (CType.mk "Point" (.record (RecordDecl.mk "Point" [FieldDecl.mk "x", FieldDecl.mk "y"])) none)
      (.initListE (SrcSpan.mk 0 0) [Expr.intLit 1]) = none
  ∧ (exprToString [] [] (Expr.intLit 3)).isSome := by
  constructor
  · exact compound_init_indexing_totality.1 [] [] "Point"
      (RecordDecl.mk "Point" [FieldDecl.mk "x", FieldDecl.mk "y"]) none (SrcSpan.mk 0 0)
      [Expr.intLit 1] (by decide)
  · exact compound_init_indexing_totality.2 [] [] (Expr.intLit 3) (EnoughInits.intLit 3)

/-- A declaration that is not the sentinel is in particular not a compound
sentinel. -/
theorem isSentinel_false_isCompoundSentinel (d : TopDecl) (h : d.isSentinel = false) :
    d.isCompoundSentinel = false := by
  cases d with
  | varDecl n init =>
    simp [TopDecl.isSentinel] at h
    simp [TopDecl.isCompoundSentinel, h]
  | otherDecl => rfl

/-- The declaration scan returns none when no declaration is a compound
sentinel. -/
theorem findDummyVar_none (reg : Registry) (src : List Char) (dn : String) :
    ∀ (decls : List TopDecl), (∀ d ∈ decls, d.isCompoundSentinel = false) →
      findDummyVarAndConvert reg src dn decls = .ok none := by
  intro decls
  induction decls with
  | nil => intro _; rfl
  | cons d rest ih =>
    intro h
    have hd := h d (by simp)
    have hrest := ih (fun d2 hd2 => h d2 (by simp [hd2]))
    cases d with
    | otherDecl => simpa [findDummyVarAndConvert] using hrest
    | varDecl n init =>
      cases hn : (n == "__dummy_var") with
      | false => simp [findDummyVarAndConvert, hn, hrest]
      | true =>
        simp [TopDecl.isCompoundSentinel, hn] at hd
        cases hic : init.ignoreImpCasts with
        | compoundLit ty iz => rw [hic] at hd; simp at hd
        | intLit v => simp [findDummyVarAndConvert, hn, hic, hrest]
        | floatLit t => simp [findDummyVarAndConvert, hn, hic, hrest]
        | strLit c => simp [findDummyVarAndConvert, hn, hic, hrest]
        | initListE sp inits => simp [findDummyVarAndConvert, hn, hic, hrest]
        | implCast sp sub => simp [findDummyVarAndConvert, hn, hic, hrest]
        | otherE sp => simp [findDummyVarAndConvert, hn, hic, hrest]

/-- C8: the Evaluation Entry Point returns absence (never a fault) on every
unsupported input: an angle-bracket header path, a failed parse, a missing
sentinel declaration, and sentinels whose cast-stripped initializer is not
a compound literal. -/
theorem macro_eval_absence_on_unsupported :
    (∀ (reg : Registry) (hp dn : String) (parsed : Option (List TopDecl)) (src : List Char),
        hp.toList.head? = some '<' → hp.toList.getLast? = some '>' →
        macro_to_named_initializer reg hp dn parsed src = .ok none)
  ∧ (∀ (reg : Registry) (hp dn : String) (src : List Char),
        macro_to_named_initializer reg hp dn none src = .ok none)
  ∧ (∀ (reg : Registry) (hp dn : String) (decls : List TopDecl) (src : List Char),
        (∀ d ∈ decls, d.isSentinel = false) →
        macro_to_named_initializer reg hp dn (some decls) src = .ok none)
  ∧ (∀ (reg : Registry) (hp dn : String) (decls : List TopDecl) (src : List Char),
        (∀ d ∈ decls, d.isCompoundSentinel = false) →
        macro_to_named_initializer reg hp dn (some decls) src = .ok none) := by
  have habs : ∀ (reg : Registry) (hp dn : String) (decls : List TopDecl) (src : List Char),
      (∀ d ∈ decls, d.isCompoundSentinel = false) →
      macro_to_named_initializer reg hp dn (some decls) src = .ok none := by
    intro reg hp dn decls src h
    unfold macro_to_named_initializer
    cases hc : (hp.toList.head? == some '<' && hp.toList.getLast? == some '>') with
    | true => simp [hc]
    | false => simp [hc, findDummyVar_none reg src dn decls h]
  refine ⟨?_, ?_, ?_, habs⟩
  · intro reg hp dn parsed src h1 h2
    simp only [String.toList] at h1 h2
    unfold macro_to_named_initializer
    simp [h1, h2]
  · intro reg hp dn src
    unfold macro_to_named_initializer
    cases hc : (hp.toList.head? == some '<' && hp.toList.getLast? == some '>') with
    | true => simp [hc]
    | false => simp [hc]
  · intro reg hp dn decls src h
    exact habs reg hp dn decls src (fun d hd => isSentinel_false_isCompoundSentinel d (h d hd))

/-- C8 (witness): the four absence paths at concrete inputs. -/
theorem macro_eval_absence_witness :
    macro_to_named_initializer [] "<stdio.h>" "EOF" none [] = .ok none
  ∧ macro_to_named_initializer [] "h.h" "M" none [] = .ok none
  ∧ macro_to_named_initializer [] "h.h" "M" (some [TopDecl.otherDecl]) [] = .ok none
  ∧ macro_to_named_initializer [] "h.h" "M"
      (some [TopDecl.varDecl "__dummy_var" (Expr.intLit 42)]) [] = .ok none := by
  refine ⟨macro_eval_absence_on_unsupported.1 [] "<stdio.h>" "EOF" none []
      (by decide) (by decide),
    macro_eval_absence_on_unsupported.2.1 [] "h.h" "M" [],
    macro_eval_absence_on_unsupported.2.2.1 [] "h.h" "M" [TopDecl.otherDecl] [] ?_,
    macro_eval_absence_on_unsupported.2.2.2 [] "h.h" "M"
      [TopDecl.varDecl "__dummy_var" (Expr.intLit 42)] [] ?_⟩
  · intro d hd
    simp at hd
    subst hd
    rfl
  · intro d hd
    simp at hd
    subst hd
    rfl

end Constants
